import Mathlib

/-!
Shallow embedding of `src/useScrollAnimation.js`.

Elements (Targets) are modelled as natural-number handles.  An element's
class list is modelled as the set of `(element, className)` pairs present
in the document, kept as a list.  The IntersectionObserver engine instance
is a record holding the construction-time options (`threshold`,
`rootMargin`), the parameters captured by the `intersectionCallback`
closure passed at construction (`cbVisibleClass`, the `visibleClass` of
the effect run that created it, and `cbTriggerOnce`, that run's
`options.triggerOnce`), the set of currently observed targets, and the
queue of pending intersection records (what `takeRecords()` drains).

JavaScript `undefined` for an optional field is modelled as `none`;
truthiness of `options.triggerOnce` (an `if (options.triggerOnce)` test)
is `Option.getD false`, and `options.rootMargin || '0px'` is `jsOr`.
The live geometric visibility of an element is part of the host
environment and is never read synchronously by the source code, so it
does not appear in the embedding; the engine reports it only through
delivered `Entry` batches, which the theorems quantify over.
-/

namespace ScrollAnim

/-- One intersection record, as handed to the callback or returned by
`takeRecords()`: the target element and its `isIntersecting` flag. -/
structure Entry where
  target : Nat
  isIntersecting : Bool
deriving DecidableEq

/-- The IntersectionObserver engine instance created by the hook.
`threshold` is the value passed at construction (`none` models passing
`undefined`); `cbVisibleClass` and `cbTriggerOnce` are the values the
`intersectionCallback` closure captured when the instance was created. -/
structure Observer where
  threshold : Option ℚ
  rootMargin : String
  cbVisibleClass : String
  cbTriggerOnce : Option Bool
  observed : List Nat
  queue : List Entry
deriving DecidableEq

/-- The `options` argument object: every field may be absent
(JavaScript `undefined`). -/
structure OptionsObj where
  threshold : Option ℚ
  triggerOnce : Option Bool
  rootMargin : Option String
deriving DecidableEq

/-- Truthiness of an optional boolean field: `undefined` is falsy. -/
def truthy (b : Option Bool) : Bool :=
  b.getD false

/-- JavaScript `s || d` for an optional string: `undefined` and the
empty string are falsy and fall back to the default. -/
def jsOr (s : Option String) (d : String) : String :=
  match s with
  | none => d
  | some v => if v = "" then d else v

/-- Does element `t` currently carry class `c`? -/
def hasClass (m : List (Nat × String)) (t : Nat) (c : String) : Bool :=
  decide ((t, c) ∈ m)

/-- `element.classList.add(c)`: a set-like add. -/
def classAdd (m : List (Nat × String)) (t : Nat) (c : String) : List (Nat × String) :=
  if (t, c) ∈ m then m else (t, c) :: m

/-- `element.classList.remove(c)`. -/
def classRemove (m : List (Nat × String)) (t : Nat) (c : String) : List (Nat × String) :=
  m.filter (fun p => decide (p ≠ (t, c)))

/-- `observer.observe(target)`: a no-op when the target is already
observed, as the host engine specifies. -/
def Observer.observe (o : Observer) (t : Nat) : Observer :=
  if t ∈ o.observed then o else { o with observed := o.observed ++ [t] }

/-- `observer.unobserve(target)`. -/
def Observer.unobserve (o : Observer) (t : Nat) : Observer :=
  { o with observed := o.observed.filter (fun u => decide (u ≠ t)) }

/-- `observer.takeRecords()`: returns the pending records and empties
the queue. -/
def Observer.takeRecords (o : Observer) : List Entry × Observer :=
  (o.queue, { o with queue := [] })

/-- The mutable state the hook touches: the document's class memberships
and the one engine instance of the session. -/
structure DomState where
  classes : List (Nat × String)
  observer : Observer
deriving DecidableEq

/-- One iteration of `entries.forEach` inside `intersectionCallback`:
if the entry is intersecting, add the class and, when `triggerOnce` is
truthy, unobserve the target; otherwise, when `triggerOnce` is falsy,
remove the class. -/
def processEntry (vClass : String) (tOnce : Option Bool) (s : DomState) (e : Entry) : DomState :=
  if e.isIntersecting then
    let cl := classAdd s.classes e.target vClass
    if truthy tOnce then
      { classes := cl, observer := s.observer.unobserve e.target }
    else
      { classes := cl, observer := s.observer }
  else
    if truthy tOnce then s
    else { classes := classRemove s.classes e.target vClass, observer := s.observer }

/-- The `intersectionCallback` closure, applied to a batch of entries.
`vClass` and `tOnce` are the `visibleClass` and `options.triggerOnce`
in scope where the closure was defined. -/
def intersectionCallback (vClass : String) (tOnce : Option Bool) (s : DomState)
    (entries : List Entry) : DomState :=
  entries.foldl (processEntry vClass tOnce) s

/-- The host engine invoking the observer's callback with a batch of
records: the closure parameters are the ones captured at the observer's
construction. -/
def deliver (s : DomState) (entries : List Entry) : DomState :=
  intersectionCallback s.observer.cbVisibleClass s.observer.cbTriggerOnce s entries

/-- One iteration of `targets.forEach` in the effect body: drain
`takeRecords()`, test whether some pending record marks this target as
intersecting, and branch exactly as the source does. -/
def attachTarget (vClass : String) (tOnce : Option Bool) (s : DomState) (t : Nat) : DomState :=
  let recs := s.observer.takeRecords
  let alreadyVisible := recs.1.any (fun e => e.target == t && e.isIntersecting)
  if alreadyVisible then
    let cl := classAdd s.classes t vClass
    if truthy tOnce then
      { classes := cl, observer := recs.2 }
    else
      { classes := cl, observer := recs.2.observe t }
  else
    { classes := s.classes, observer := recs.2.observe t }

/-- The body of the `useEffect` (one activation / re-evaluation).
`available` tells whether the host provides the `IntersectionObserver`
constructor; `observerRef` is `observerRef.current` on entry; `targets`
is what `document.querySelectorAll(targetSelector)` matched.  Returns
the resulting document/observer state, or the thrown error when the
constructor is missing. -/
def effectBody (available : Bool) (observerRef : Option Observer)
    (classes : List (Nat × String)) (targets : List Nat)
    (visibleClass : String) (options : OptionsObj) : Except String DomState :=
  match observerRef with
  | some o =>
      .ok (targets.foldl (attachTarget visibleClass options.triggerOnce) ⟨classes, o⟩)
  | none =>
      if available then
        let o : Observer :=
          { threshold := options.threshold
            rootMargin := jsOr options.rootMargin "0px"
            cbVisibleClass := visibleClass
            cbTriggerOnce := options.triggerOnce
            observed := []
            queue := [] }
        .ok (targets.foldl (attachTarget visibleClass options.triggerOnce) ⟨classes, o⟩)
      else
        .error "IntersectionObserver is not defined"

/-- The hook call with JavaScript default-parameter semantics: a default
replaces an argument only when the whole argument is `undefined`. -/
def useScrollAnimation (available : Bool) (observerRef : Option Observer)
    (classes : List (Nat × String)) (targets : List Nat)
    (visibleClass : Option String) (options : Option OptionsObj) : Except String DomState :=
  effectBody available observerRef classes targets
    (visibleClass.getD "is-visible")
    (options.getD ⟨some ((1 : ℚ)/10), some true, none⟩)

/-- The effect cleanup: `targets.forEach(target => observer.unobserve(target))`. -/
def cleanup (s : DomState) (targets : List Nat) : DomState :=
  { s with observer := targets.foldl Observer.unobserve s.observer }

end ScrollAnim

namespace ScrollAnim

theorem hasClass_classAdd_self (m : List (Nat × String)) (t : Nat) (c : String) :
    hasClass (classAdd m t c) t c = true := by
  simp only [hasClass, classAdd]
  split <;> simp_all

theorem hasClass_classRemove_self (m : List (Nat × String)) (t : Nat) (c : String) :
    hasClass (classRemove m t c) t c = false := by
  simp [hasClass, classRemove, List.mem_filter]

theorem hasClass_classAdd_mono (m : List (Nat × String)) (t u : Nat) (c d : String)
    (h : hasClass m t c = true) : hasClass (classAdd m u d) t c = true := by
  simp only [hasClass, classAdd, decide_eq_true_eq] at *
  split
  · exact h
  · exact List.mem_cons_of_mem _ h

theorem hasClass_classAdd_other (m : List (Nat × String)) (t u : Nat) (c d : String)
    (h : u ≠ t) : hasClass (classAdd m u d) t c = hasClass m t c := by
  simp only [hasClass, classAdd]
  split
  · rfl
  · rw [decide_eq_decide]
    simp only [List.mem_cons, Prod.mk.injEq]
    constructor
    · rintro (⟨h1, _⟩ | hm)
      · exact absurd h1.symm h
      · exact hm
    · exact fun hm => Or.inr hm

theorem hasClass_classRemove_other (m : List (Nat × String)) (t u : Nat) (c d : String)
    (h : u ≠ t) : hasClass (classRemove m u d) t c = hasClass m t c := by
  simp only [hasClass, classRemove]
  rw [decide_eq_decide]
  simp only [List.mem_filter, decide_eq_true_eq, ne_eq, Prod.mk.injEq, not_and]
  constructor
  · exact fun hp => hp.1
  · intro hp
    exact ⟨hp, fun h1 => absurd h1.symm h⟩

theorem processEntry_observed_subset (vc : String) (tc : Option Bool) (s : DomState)
    (e : Entry) (u : Nat) (h : u ∈ (processEntry vc tc s e).observer.observed) :
    u ∈ s.observer.observed := by
  simp only [processEntry] at h
  split at h
  · split at h
    · simp only [Observer.unobserve, List.mem_filter] at h
      exact h.1
    · exact h
  · split at h
    · exact h
    · exact h

theorem foldl_processEntry_observed_not_mem (vc : String) (tc : Option Bool)
    (entries : List Entry) (s : DomState) (t : Nat) (h : t ∉ s.observer.observed) :
    t ∉ (entries.foldl (processEntry vc tc) s).observer.observed := by
  induction entries generalizing s with
  | nil => exact h
  | cons e es ih =>
    rw [List.foldl_cons]
    exact ih _ (fun hm => h (processEntry_observed_subset vc tc s e t hm))

theorem processEntry_unobserves (vc : String) (tc : Option Bool) (s : DomState) (t : Nat)
    (htc : truthy tc = true) :
    t ∉ (processEntry vc tc s (Entry.mk t true)).observer.observed := by
  simp [processEntry, htc, Observer.unobserve, List.mem_filter]

theorem processEntry_hasClass_mono (vc : String) (tc : Option Bool) (s : DomState)
    (e : Entry) (t : Nat) (htc : truthy tc = true)
    (h : hasClass s.classes t vc = true) :
    hasClass (processEntry vc tc s e).classes t vc = true := by
  obtain ⟨u, b⟩ := e
  cases b
  · simpa [processEntry, htc] using h
  · simp only [processEntry, htc]
    simpa using hasClass_classAdd_mono _ _ _ _ _ h

theorem processEntry_hasClass_last (vc : String) (tc : Option Bool) (s : DomState)
    (t : Nat) (b : Bool) (htc : truthy tc = false) :
    hasClass (processEntry vc tc s (Entry.mk t b)).classes t vc = b := by
  cases b <;> simp [processEntry, htc, hasClass_classRemove_self, hasClass_classAdd_self]

theorem processEntry_hasClass_other (vc : String) (tc : Option Bool) (s : DomState)
    (e : Entry) (t : Nat) (c : String) (het : e.target ≠ t) :
    hasClass (processEntry vc tc s e).classes t c = hasClass s.classes t c := by
  simp only [processEntry]
  split
  · split <;> exact hasClass_classAdd_other _ _ _ _ _ het
  · split
    · rfl
    · exact hasClass_classRemove_other _ _ _ _ _ het

theorem foldl_processEntry_hasClass_other (vc : String) (tc : Option Bool)
    (entries : List Entry) (s : DomState) (t : Nat) (c : String)
    (h : ∀ e ∈ entries, e.target ≠ t) :
    hasClass (entries.foldl (processEntry vc tc) s).classes t c = hasClass s.classes t c := by
  induction entries generalizing s with
  | nil => rfl
  | cons e es ih =>
    rw [List.foldl_cons, ih _ (fun e' he' => h e' (List.mem_cons_of_mem _ he'))]
    exact processEntry_hasClass_other vc tc s e t c (h e (List.mem_cons_self e es))

end ScrollAnim

namespace ScrollAnim

theorem foldl_processEntry_hasClass_mono (vc : String) (tc : Option Bool)
    (entries : List Entry) (s : DomState) (t : Nat) (htc : truthy tc = true)
    (h : hasClass s.classes t vc = true) :
    hasClass (entries.foldl (processEntry vc tc) s).classes t vc = true := by
  induction entries generalizing s with
  | nil => exact h
  | cons e es ih =>
    rw [List.foldl_cons]
    exact ih _ (processEntry_hasClass_mono vc tc s e t htc h)

theorem foldl_processEntry_unobserved (vc : String) (tc : Option Bool)
    (entries : List Entry) (s : DomState) (t : Nat) (htc : truthy tc = true)
    (hMem : Entry.mk t true ∈ entries) :
    t ∉ (entries.foldl (processEntry vc tc) s).observer.observed := by
  induction entries generalizing s with
  | nil => cases hMem
  | cons e es ih =>
    rw [List.foldl_cons]
    rcases List.mem_cons.mp hMem with he | hes
    · subst he
      exact foldl_processEntry_observed_not_mem vc tc es _ t
        (processEntry_unobserves vc tc s t htc)
    · exact ih _ hes

theorem foldl_processEntry_hasClass_of_mem (vc : String) (tc : Option Bool)
    (entries : List Entry) (s : DomState) (t : Nat) (htc : truthy tc = true)
    (hMem : Entry.mk t true ∈ entries) :
    hasClass (entries.foldl (processEntry vc tc) s).classes t vc = true := by
  induction entries generalizing s with
  | nil => cases hMem
  | cons e es ih =>
    rw [List.foldl_cons]
    rcases List.mem_cons.mp hMem with he | hes
    · subst he
      refine foldl_processEntry_hasClass_mono vc tc es _ t htc ?_
      simp [processEntry, htc, hasClass_classAdd_self]
    · exact ih _ hes

theorem processEntry_cbVisibleClass (vc : String) (tc : Option Bool) (s : DomState) (e : Entry) :
    (processEntry vc tc s e).observer.cbVisibleClass = s.observer.cbVisibleClass := by
  simp only [processEntry]
  repeat' split
  all_goals rfl

theorem processEntry_cbTriggerOnce (vc : String) (tc : Option Bool) (s : DomState) (e : Entry) :
    (processEntry vc tc s e).observer.cbTriggerOnce = s.observer.cbTriggerOnce := by
  simp only [processEntry]
  repeat' split
  all_goals rfl

theorem foldl_processEntry_cbVisibleClass (vc : String) (tc : Option Bool)
    (entries : List Entry) (s : DomState) :
    (entries.foldl (processEntry vc tc) s).observer.cbVisibleClass =
      s.observer.cbVisibleClass := by
  induction entries generalizing s with
  | nil => rfl
  | cons e es ih =>
    rw [List.foldl_cons, ih _]
    exact processEntry_cbVisibleClass vc tc s e

theorem foldl_processEntry_cbTriggerOnce (vc : String) (tc : Option Bool)
    (entries : List Entry) (s : DomState) :
    (entries.foldl (processEntry vc tc) s).observer.cbTriggerOnce =
      s.observer.cbTriggerOnce := by
  induction entries generalizing s with
  | nil => rfl
  | cons e es ih =>
    rw [List.foldl_cons, ih _]
    exact processEntry_cbTriggerOnce vc tc s e

theorem deliver_cbVisibleClass (s : DomState) (entries : List Entry) :
    (deliver s entries).observer.cbVisibleClass = s.observer.cbVisibleClass :=
  foldl_processEntry_cbVisibleClass _ _ entries s

theorem deliver_cbTriggerOnce (s : DomState) (entries : List Entry) :
    (deliver s entries).observer.cbTriggerOnce = s.observer.cbTriggerOnce :=
  foldl_processEntry_cbTriggerOnce _ _ entries s

theorem unobserve_not_mem (o : Observer) (t : Nat) : t ∉ (o.unobserve t).observed := by
  simp [Observer.unobserve, List.mem_filter]

theorem unobserve_observed_subset (o : Observer) (t u : Nat)
    (h : u ∈ (o.unobserve t).observed) : u ∈ o.observed := by
  simp only [Observer.unobserve, List.mem_filter] at h
  exact h.1

theorem foldl_unobserve_not_mem_of (l : List Nat) (o : Observer) (t : Nat)
    (h : t ∉ o.observed) : t ∉ (l.foldl Observer.unobserve o).observed := by
  induction l generalizing o with
  | nil => exact h
  | cons x xs ih =>
    rw [List.foldl_cons]
    exact ih _ (fun hm => h (unobserve_observed_subset _ _ _ hm))

theorem foldl_unobserve_not_mem (l : List Nat) (o : Observer) (t : Nat) (h : t ∈ l) :
    t ∉ (l.foldl Observer.unobserve o).observed := by
  induction l generalizing o with
  | nil => cases h
  | cons x xs ih =>
    rw [List.foldl_cons]
    rcases List.mem_cons.mp h with rfl | hxs
    · exact foldl_unobserve_not_mem_of xs _ t (unobserve_not_mem o t)
    · exact ih _ hxs

end ScrollAnim

namespace ScrollAnim

theorem attachTarget_threshold (vc : String) (tc : Option Bool) (s : DomState) (t : Nat) :
    (attachTarget vc tc s t).observer.threshold = s.observer.threshold := by
  simp only [attachTarget, Observer.takeRecords, Observer.observe]
  repeat' split
  all_goals rfl

theorem attachTarget_rootMargin (vc : String) (tc : Option Bool) (s : DomState) (t : Nat) :
    (attachTarget vc tc s t).observer.rootMargin = s.observer.rootMargin := by
  simp only [attachTarget, Observer.takeRecords, Observer.observe]
  repeat' split
  all_goals rfl

theorem attachTarget_cbVisibleClass (vc : String) (tc : Option Bool) (s : DomState) (t : Nat) :
    (attachTarget vc tc s t).observer.cbVisibleClass = s.observer.cbVisibleClass := by
  simp only [attachTarget, Observer.takeRecords, Observer.observe]
  repeat' split
  all_goals rfl

theorem attachTarget_cbTriggerOnce (vc : String) (tc : Option Bool) (s : DomState) (t : Nat) :
    (attachTarget vc tc s t).observer.cbTriggerOnce = s.observer.cbTriggerOnce := by
  simp only [attachTarget, Observer.takeRecords, Observer.observe]
  repeat' split
  all_goals rfl

theorem attachTarget_observed_mono (vc : String) (tc : Option Bool) (s : DomState)
    (t u : Nat) (h : u ∈ s.observer.observed) :
    u ∈ (attachTarget vc tc s t).observer.observed := by
  simp only [attachTarget, Observer.takeRecords, Observer.observe]
  repeat' split
  all_goals simp_all [List.mem_append]

theorem foldl_attachTarget_threshold (vc : String) (tc : Option Bool)
    (targets : List Nat) (init : DomState) :
    ((targets.foldl (attachTarget vc tc) init).observer.threshold = init.observer.threshold) := by
  induction targets generalizing init with
  | nil => rfl
  | cons t ts ih =>
    rw [List.foldl_cons, ih _]
    exact attachTarget_threshold vc tc init t

theorem foldl_attachTarget_rootMargin (vc : String) (tc : Option Bool)
    (targets : List Nat) (init : DomState) :
    ((targets.foldl (attachTarget vc tc) init).observer.rootMargin = init.observer.rootMargin) := by
  induction targets generalizing init with
  | nil => rfl
  | cons t ts ih =>
    rw [List.foldl_cons, ih _]
    exact attachTarget_rootMargin vc tc init t

theorem foldl_attachTarget_cbVisibleClass (vc : String) (tc : Option Bool)
    (targets : List Nat) (init : DomState) :
    ((targets.foldl (attachTarget vc tc) init).observer.cbVisibleClass =
      init.observer.cbVisibleClass) := by
  induction targets generalizing init with
  | nil => rfl
  | cons t ts ih =>
    rw [List.foldl_cons, ih _]
    exact attachTarget_cbVisibleClass vc tc init t

theorem foldl_attachTarget_cbTriggerOnce (vc : String) (tc : Option Bool)
    (targets : List Nat) (init : DomState) :
    ((targets.foldl (attachTarget vc tc) init).observer.cbTriggerOnce =
      init.observer.cbTriggerOnce) := by
  induction targets generalizing init with
  | nil => rfl
  | cons t ts ih =>
    rw [List.foldl_cons, ih _]
    exact attachTarget_cbTriggerOnce vc tc init t

theorem foldl_attachTarget_observed_mono (vc : String) (tc : Option Bool)
    (targets : List Nat) (init : DomState) (u : Nat) (h : u ∈ init.observer.observed) :
    u ∈ (targets.foldl (attachTarget vc tc) init).observer.observed := by
  induction targets generalizing init with
  | nil => exact h
  | cons t ts ih =>
    rw [List.foldl_cons]
    exact ih _ (attachTarget_observed_mono vc tc init t u h)

end ScrollAnim

namespace ScrollAnim

theorem foldl_processEntry_hasClass_getLastD (vc : String) (tc : Option Bool)
    (flags : List Bool) (s : DomState) (t : Nat) (htc : truthy tc = false) :
    hasClass ((flags.map (Entry.mk t)).foldl (processEntry vc tc) s).classes t vc =
      flags.getLastD (hasClass s.classes t vc) := by
  induction flags generalizing s with
  | nil => rfl
  | cons b bs ih =>
    rw [List.map_cons, List.foldl_cons, ih, List.getLastD_cons]
    congr 1
    exact processEntry_hasClass_last vc tc s t b htc

/-- C1: the code evaluated at the claim's scenario.  An element that is
currently intersecting at activation time of a fresh session is *not*
marked synchronously and *is* subscribed, even under the default
`triggerOnce = true`: the `alreadyVisible` test reads
`observer.takeRecords()`, which can only surface pending records of
previously observed targets and is necessarily empty on a freshly
constructed observer, so the branch the claim describes cannot fire.
Live visibility is not an input of `useScrollAnimation` at all (the code
never reads it synchronously), so the result below holds whatever the
element's actual intersection ratio is. -/
theorem fresh_activation_not_synchronous :
    useScrollAnimation true none [] [0] none none =
      .ok ⟨[], ⟨some ((1 : ℚ)/10), "0px", "is-visible", some true, [0], []⟩⟩ := rfl

/-- C2 counterexample: a config object supplying only `threshold`
(`{threshold: 0.5}`) does not behave as `triggerOnce = true`.  The
activation leaves `cbTriggerOnce` absent (falsy, i.e. `false`), so after
an enter event the target is still observed (under the claimed default
it would have been unobserved), and a following leave event removes the
marker (under the claimed default the marker would never be removed). -/
theorem partial_config_counterexample :
    useScrollAnimation true none [] [0] none (some ⟨some ((1 : ℚ)/2), none, none⟩) =
      .ok ⟨[], ⟨some ((1 : ℚ)/2), "0px", "is-visible", none, [0], []⟩⟩ ∧
    deliver (deliver ⟨[], ⟨some ((1 : ℚ)/2), "0px", "is-visible", none, [0], []⟩⟩
        [Entry.mk 0 true]) [Entry.mk 0 false] =
      ⟨[], ⟨some ((1 : ℚ)/2), "0px", "is-visible", none, [0], []⟩⟩ :=
  ⟨rfl, rfl⟩

/-- C2 (amended): `markerName` is individually optional (omitting it is
the same as passing `"is-visible"`), and omitting the *whole* config
object is the same as passing `{threshold := 0.1, triggerOnce := true}`;
within a supplied config object only `regionMargin` is individually
defaulted to `"0px"`, while an omitted `triggerOnce` is falsy (behaves
as `false`, not the claimed `true`) and an omitted `threshold` is passed
through unresolved to the engine (no `0.1` fallback). -/
theorem defaults_resolution (avail : Bool) (ref : Option Observer)
    (classes : List (Nat × String)) (targets : List Nat)
    (vcOpt : Option String) (optsOpt : Option OptionsObj)
    (th : Option ℚ) (tOn : Option Bool) (rm : Option String) :
    useScrollAnimation avail ref classes targets none optsOpt =
      useScrollAnimation avail ref classes targets (some "is-visible") optsOpt ∧
    useScrollAnimation avail ref classes targets vcOpt none =
      useScrollAnimation avail ref classes targets vcOpt
        (some ⟨some ((1 : ℚ)/10), some true, none⟩) ∧
    (∃ s, effectBody true none classes targets "is-visible" ⟨th, tOn, none⟩ = .ok s ∧
      s.observer.rootMargin = "0px" ∧ s.observer.threshold = th) ∧
    truthy (OptionsObj.triggerOnce ⟨th, none, rm⟩) = false := by
  refine ⟨rfl, rfl, ⟨_, rfl, ?_, ?_⟩, rfl⟩
  · exact foldl_attachTarget_rootMargin _ _ targets _
  · exact foldl_attachTarget_threshold _ _ targets _

/-- C3: when the observer's captured `triggerOnce` is truthy, a batch
containing an intersecting record for `t` marks `t` and leaves it
unobserved, and no further delivered batch ever removes the marker. -/
theorem triggerOnce_marker_permanent (s : DomState) (entries more : List Entry) (t : Nat)
    (htc : truthy s.observer.cbTriggerOnce = true)
    (hMem : Entry.mk t true ∈ entries) :
    hasClass (deliver s entries).classes t s.observer.cbVisibleClass = true ∧
    t ∉ (deliver s entries).observer.observed ∧
    hasClass (deliver (deliver s entries) more).classes t s.observer.cbVisibleClass = true := by
  have h1 : hasClass (deliver s entries).classes t s.observer.cbVisibleClass = true :=
    foldl_processEntry_hasClass_of_mem _ _ entries s t htc hMem
  refine ⟨h1, foldl_processEntry_unobserved _ _ entries s t htc hMem, ?_⟩
  show hasClass ((more.foldl (processEntry (deliver s entries).observer.cbVisibleClass
      (deliver s entries).observer.cbTriggerOnce)) (deliver s entries)).classes t
      s.observer.cbVisibleClass = true
  rw [deliver_cbVisibleClass, deliver_cbTriggerOnce]
  exact foldl_processEntry_hasClass_mono _ _ more _ t htc h1

/-- Witness for C3 at a concrete state: one observed target, an enter
batch, then a leave batch. -/
theorem triggerOnce_marker_permanent_witness :
    hasClass (deliver ⟨[], ⟨none, "0px", "v", some true, [0], []⟩⟩
      [Entry.mk 0 true]).classes 0 "v" = true ∧
    0 ∉ (deliver ⟨[], ⟨none, "0px", "v", some true, [0], []⟩⟩
      [Entry.mk 0 true]).observer.observed ∧
    hasClass (deliver (deliver ⟨[], ⟨none, "0px", "v", some true, [0], []⟩⟩
      [Entry.mk 0 true]) [Entry.mk 0 false]).classes 0 "v" = true :=
  triggerOnce_marker_permanent ⟨[], ⟨none, "0px", "v", some true, [0], []⟩⟩
    [Entry.mk 0 true] [Entry.mk 0 false] 0 (by decide) (by decide)

/-- C4: when the observer's captured `triggerOnce` is falsy, after any
finite sequence of delivered events for a target the marker is present
exactly when the last event reported the target as intersecting (and an
empty sequence leaves the initial state). -/
theorem repeat_toggle_tracks_last (s : DomState) (flags : List Bool) (t : Nat)
    (htc : truthy s.observer.cbTriggerOnce = false) :
    hasClass (deliver s (flags.map (Entry.mk t))).classes t s.observer.cbVisibleClass =
      flags.getLastD (hasClass s.classes t s.observer.cbVisibleClass) :=
  foldl_processEntry_hasClass_getLastD _ _ flags s t htc

/-- Witness for C4: the spec's 2.5-cycle scenario, five transitions
add, remove, add, remove, add. -/
theorem repeat_toggle_tracks_last_witness :
    hasClass (deliver ⟨[], ⟨some 0, "0px", "v", some false, [0], []⟩⟩
      ([true, false, true, false, true].map (Entry.mk 0))).classes 0 "v" =
    [true, false, true, false, true].getLastD (hasClass [] 0 "v") :=
  repeat_toggle_tracks_last ⟨[], ⟨some 0, "0px", "v", some false, [0], []⟩⟩
    [true, false, true, false, true] 0 (by decide)

/-- C5: after the cleanup every target of the torn-down run is
unobserved, the cleanup itself mutates no marker, and any batch the
engine generates afterwards (hence only for still-observed targets)
leaves the markers of the released targets untouched. -/
theorem teardown_releases_session (s : DomState) (targets : List Nat)
    (entries : List Entry) (t : Nat) (c : String) (ht : t ∈ targets)
    (hv : ∀ e ∈ entries, e.target ∈ (cleanup s targets).observer.observed) :
    t ∉ (cleanup s targets).observer.observed ∧
    (cleanup s targets).classes = s.classes ∧
    hasClass (deliver (cleanup s targets) entries).classes t c = hasClass s.classes t c := by
  have hout : t ∉ (cleanup s targets).observer.observed :=
    foldl_unobserve_not_mem targets s.observer t ht
  refine ⟨hout, rfl, ?_⟩
  exact foldl_processEntry_hasClass_other _ _ entries _ t c
    (fun e he heq => hout (heq ▸ hv e he))

/-- Witness for C5: tear down a run over target 0 while target 1 stays
observed, then deliver an event for target 1. -/
theorem teardown_releases_session_witness :
    0 ∉ (cleanup ⟨[(0, "x")], ⟨none, "0px", "x", some true, [0, 1], []⟩⟩ [0]).observer.observed ∧
    (cleanup ⟨[(0, "x")], ⟨none, "0px", "x", some true, [0, 1], []⟩⟩ [0]).classes = [(0, "x")] ∧
    hasClass (deliver (cleanup ⟨[(0, "x")], ⟨none, "0px", "x", some true, [0, 1], []⟩⟩ [0])
      [Entry.mk 1 true]).classes 0 "x" = hasClass [(0, "x")] 0 "x" :=
  teardown_releases_session ⟨[(0, "x")], ⟨none, "0px", "x", some true, [0, 1], []⟩⟩ [0]
    [Entry.mk 1 true] 0 "x" (by decide) (by decide)

/-- C6: the engine is created lazily (a run with an empty ref constructs
it from the current arguments) and a run with an existing instance
reuses it unchanged: its construction-time fields survive and every
already-observed target stays observed. -/
theorem lazy_engine_reuse (avail : Bool) (o : Observer) (classes : List (Nat × String))
    (targets : List Nat) (vc : String) (opts : OptionsObj) (u : Nat)
    (hu : u ∈ o.observed) :
    (∃ s, effectBody true none classes targets vc opts = .ok s ∧
      s.observer.threshold = opts.threshold ∧
      s.observer.rootMargin = jsOr opts.rootMargin "0px" ∧
      s.observer.cbVisibleClass = vc ∧
      s.observer.cbTriggerOnce = opts.triggerOnce) ∧
    (∃ s, effectBody avail (some o) classes targets vc opts = .ok s ∧
      s.observer.threshold = o.threshold ∧
      s.observer.rootMargin = o.rootMargin ∧
      s.observer.cbVisibleClass = o.cbVisibleClass ∧
      s.observer.cbTriggerOnce = o.cbTriggerOnce ∧
      u ∈ s.observer.observed) := by
  constructor
  · refine ⟨_, rfl, ?_, ?_, ?_, ?_⟩
    · exact foldl_attachTarget_threshold _ _ targets _
    · exact foldl_attachTarget_rootMargin _ _ targets _
    · exact foldl_attachTarget_cbVisibleClass _ _ targets _
    · exact foldl_attachTarget_cbTriggerOnce _ _ targets _
  · refine ⟨_, rfl, ?_, ?_, ?_, ?_, ?_⟩
    · exact foldl_attachTarget_threshold _ _ targets _
    · exact foldl_attachTarget_rootMargin _ _ targets _
    · exact foldl_attachTarget_cbVisibleClass _ _ targets _
    · exact foldl_attachTarget_cbTriggerOnce _ _ targets _
    · exact foldl_attachTarget_observed_mono _ _ targets _ u hu

/-- Witness for C6 at a concrete re-evaluation: an instance with target 7
already observed is reused for a run over target 2. -/
theorem lazy_engine_reuse_witness :
    (∃ s, effectBody true none [] [2] "v" ⟨none, none, none⟩ = .ok s ∧
      s.observer.threshold = none ∧
      s.observer.rootMargin = "0px" ∧
      s.observer.cbVisibleClass = "v" ∧
      s.observer.cbTriggerOnce = none) ∧
    (∃ s, effectBody true (some ⟨some ((1 : ℚ)/2), "5px", "w", some true, [7], []⟩)
        [] [2] "v" ⟨none, none, none⟩ = .ok s ∧
      s.observer.threshold = some ((1 : ℚ)/2) ∧
      s.observer.rootMargin = "5px" ∧
      s.observer.cbVisibleClass = "w" ∧
      s.observer.cbTriggerOnce = some true ∧
      7 ∈ s.observer.observed) :=
  lazy_engine_reuse true ⟨some ((1 : ℚ)/2), "5px", "w", some true, [7], []⟩
    [] [2] "v" ⟨none, none, none⟩ 7 (by decide)

/-- C7: a run whose selector matched no element changes nothing: no
marker is touched, the observed set is untouched (empty for a fresh
instance), and no error is raised. -/
theorem empty_selector_noop (observerRef : Option Observer) (classes : List (Nat × String))
    (vc : String) (opts : OptionsObj) :
    ∃ s, effectBody true observerRef classes [] vc opts = .ok s ∧
      s.classes = classes ∧
      s.observer.observed = (match observerRef with
        | none => ([] : List Nat)
        | some o => o.observed) := by
  cases observerRef with
  | none => exact ⟨_, rfl, rfl, rfl⟩
  | some o => exact ⟨_, rfl, rfl, rfl⟩

/-- C8: when the host lacks the IntersectionObserver constructor, a run
that needs to construct the engine fails with the thrown error instead
of silently doing nothing. -/
theorem missing_capability_fails_fast (classes : List (Nat × String)) (targets : List Nat)
    (vc : String) (opts : OptionsObj) :
    effectBody false none classes targets vc opts =
      .error "IntersectionObserver is not defined" := rfl

/-- C9: a re-evaluation that reuses the existing engine instance is
entirely insensitive to the `threshold` and `rootMargin` of the new
options object, and the instance keeps its construction-time values. -/
theorem config_change_inert (avail : Bool) (o : Observer) (classes : List (Nat × String))
    (targets : List Nat) (vc : String) (opts : OptionsObj)
    (th : Option ℚ) (rm : Option String) :
    effectBody avail (some o) classes targets vc opts =
      effectBody avail (some o) classes targets vc ⟨th, opts.triggerOnce, rm⟩ ∧
    ∃ s, effectBody avail (some o) classes targets vc opts = .ok s ∧
      s.observer.threshold = o.threshold ∧ s.observer.rootMargin = o.rootMargin := by
  refine ⟨rfl, _, rfl, ?_, ?_⟩
  · exact foldl_attachTarget_threshold _ _ targets _
  · exact foldl_attachTarget_rootMargin _ _ targets _

/-- C10: under a truthy captured `triggerOnce`, delivering a
not-intersecting record is a complete no-op: markers, observed set and
queue are all left exactly as they were. -/
theorem triggerOnce_leave_noop (s : DomState) (t : Nat)
    (htc : truthy s.observer.cbTriggerOnce = true) :
    deliver s [Entry.mk t false] = s := by
  simp [deliver, intersectionCallback, processEntry, htc]

/-- Witness for C10 at a concrete state. -/
theorem triggerOnce_leave_noop_witness :
    deliver ⟨[(1, "v")], ⟨none, "0px", "v", some true, [0, 1], []⟩⟩ [Entry.mk 0 false] =
      ⟨[(1, "v")], ⟨none, "0px", "v", some true, [0, 1], []⟩⟩ :=
  triggerOnce_leave_noop ⟨[(1, "v")], ⟨none, "0px", "v", some true, [0, 1], []⟩⟩ 0 (by decide)

end ScrollAnim
